import Mathlib

/-!
Verification of the window-state synchronization and application-matching
engine of the HyprFusion dotfiles repository.

The Python sources embedded here:
- modules/bar/widgets/window_matcher.py   (WindowMatcher)
- modules/bar/widgets/window_detector.py  (WindowState, HyprlandIPCListener, WindowDetector)
- modules/bar/widgets/badge_counter.py    (BadgeInfo, BadgeCounter)
- modules/bar/widgets/window_preview.py   (WindowPreviewManager)

Python strings are modelled by Lean String; the Python methods
str.strip, str.lower, the "in" substring test and str.replace are modelled
by executable character-list functions below.  Python dicts (which preserve
insertion order) are modelled by association lists with the dictMem /
dictGet? / dictSet operations.  Mutable Python objects whose identity
matters for a claim (the WindowState snapshot, the badge-cache dict) are
modelled through an explicit address-indexed store.
-/

/-! ## String helpers (Python str.strip / str.lower / in / replace) -/

/-- Python str.strip: drop leading whitespace of a character list. -/
def trimLeftChars : List Char → List Char
  | [] => []
  | c :: t => if c.isWhitespace then trimLeftChars t else c :: t

/-- Python str.strip: drop leading and trailing whitespace. -/
def trimChars (l : List Char) : List Char :=
  (trimLeftChars (trimLeftChars l).reverse).reverse

/-- Python str.lower (ASCII case mapping, as used by the identifiers here). -/
def lowerChars (l : List Char) : List Char := l.map Char.toLower

/-- WindowMatcher.normalize_string: (text or "").strip().lower() -/
def normalize_string (s : String) : String :=
  String.mk (lowerChars (trimChars s.toList))

/-- WindowMatcher.normalize_app_id: keeps the full id, only normalizes. -/
def normalize_app_id (s : String) : String := normalize_string s

/-- Python str.lower alone (no strip). -/
def lowerStr (s : String) : String := String.mk (lowerChars s.toList)

/-- Python str.strip alone (no lower). -/
def trimStr (s : String) : String := String.mk (trimChars s.toList)

/-- Python substring test: needle in hay, on character lists. -/
def listContainsSub (needle : List Char) : List Char → Bool
  | [] => needle.isEmpty
  | c :: t => needle.isPrefixOf (c :: t) || listContainsSub needle t

/-- Python substring test on strings: containsSub needle hay means needle in hay. -/
def containsSub (needle hay : String) : Bool :=
  listContainsSub needle.toList hay.toList

/-- Python app_id_lc.replace -- removes every occurrence of ".desktop"
left to right, as str.replace with an empty replacement does. -/
def stripDesktopChars : List Char → List Char
  | '.' :: 'd' :: 'e' :: 's' :: 'k' :: 't' :: 'o' :: 'p' :: rest => stripDesktopChars rest
  | c :: rest => c :: stripDesktopChars rest
  | [] => []

/-- app_id_lc.replace applied to a string. -/
def stripDesktop (s : String) : String := String.mk (stripDesktopChars s.toList)

/-! ## Ordered-dict helpers (Python dict, insertion ordered) -/

/-- Python: key in dict. -/
def dictMem {β : Type} (m : List (String × β)) (k : String) : Bool :=
  m.any (fun p => p.1 == k)

/-- Python: dict[key] lookup (first entry with the key). -/
def dictGet? {β : Type} (m : List (String × β)) (k : String) : Option β :=
  (m.find? (fun p => p.1 == k)).map Prod.snd

/-- Python: dict[key] = value.  Overwrites in place when the key exists,
otherwise appends at the end (insertion order). -/
def dictSet {β : Type} (m : List (String × β)) (k : String) (v : β) : List (String × β) :=
  if dictMem m k then m.map (fun p => if p.1 == k then (k, v) else p)
  else m ++ [(k, v)]

/-! ## Data model -/

/-- A Hyprland window as read by this code: only the identifying string
attributes the matcher and detector consult.  The source reads
initial_title (with an initialTitle alias), title, initial_class,
class_name (with a "class" alias) and app_id. -/
structure Window where
  address : String
  initial_title : String
  title : String
  initial_class : String
  class_name : String
  app_id : String
deriving DecidableEq

/-- An entry of the applications registry: id, name, icon and pinned flag. -/
structure Application where
  id : String
  name : String
  icon : Option String
  is_pinned : Bool
deriving DecidableEq

/-- One value of the group dict built by WindowMatcher.group_windows_by_app:
the dict literal with keys "app", "windows", "icon". -/
structure AppGroup where
  app : Application
  windows : List Window
  icon : Option String
deriving DecidableEq

/-! ## WindowMatcher (window_matcher.py) -/

/-- WindowMatcher.matches_window_to_app.  The source short-circuits through
six prioritized checks, each returning True; a missing attribute reads as
the empty string, and empty strings are falsy guards. -/
def matches_window_to_app (window : Window) (app : Application) : Bool :=
  let app_id_norm := normalize_app_id app.id
  let app_name_norm := normalize_string app.name
  let initial_title := normalize_string window.initial_title
  let initial_class := normalize_string window.initial_class
  let window_class := normalize_string window.class_name
  let window_app_id := normalize_string window.app_id
  let window_title := normalize_string window.title
  if initial_title != "" && app_name_norm != "" && initial_title == app_name_norm then true
  else if window_app_id != "" && window_app_id == app_id_norm then true
  else if initial_class != "" && initial_class == app_id_norm then true
  else if window_class != "" && window_class == app_id_norm then true
  else if window_title != "" && app_name_norm != "" && containsSub app_name_norm window_title then true
  else if app_id_norm != "" &&
      ((window_class != "" && containsSub app_id_norm window_class) ||
       (initial_class != "" && containsSub app_id_norm initial_class)) then true
  else false

/-- WindowMatcher._get_app_by_title: first application whose lowercased
name is nonempty and equals the lowercased title. -/
def get_app_by_title (title : String) (apps : List Application) : Option Application :=
  if title = "" then none
  else
    let title_lc := lowerStr title
    apps.find? (fun app =>
      let app_name_lc := lowerStr app.name
      app_name_lc != "" && app_name_lc == title_lc)

/-- The exact-match test of WindowMatcher._get_app_by_class: the lowercased
id is nonempty and, with every ".desktop" removed or as is, equals the
lowercased class name. -/
def isExactClassMatch (class_name_lc : String) (app : Application) : Bool :=
  let app_id_lc := lowerStr app.id
  app_id_lc != "" &&
    (stripDesktop app_id_lc == class_name_lc || app_id_lc == class_name_lc)

/-- The substring-match test of WindowMatcher._get_app_by_class (the elif
branch: not an exact match, and the class name occurs inside the id). -/
def isSubstringClassMatch (class_name_lc : String) (app : Application) : Bool :=
  let app_id_lc := lowerStr app.id
  app_id_lc != "" &&
    !(stripDesktop app_id_lc == class_name_lc || app_id_lc == class_name_lc) &&
    containsSub class_name_lc app_id_lc

/-- One comparison step of Python min(apps, key=len(app.id)): keep the
current best unless the next id is strictly shorter. -/
def minStep (acc : Option Application) (app : Application) : Option Application :=
  match acc with
  | none => some app
  | some best => if app.id.length < best.id.length then some app else acc

/-- Python min(apps, key=len(app.id)): first element of minimal id length. -/
def minByIdLen (l : List Application) : Option Application :=
  l.foldl minStep none

/-- WindowMatcher._get_app_by_class: classify every registry entry as an
exact or a substring match, prefer exact matches, and inside each class
pick the application with the shortest id (first one on ties). -/
def get_app_by_class (class_name : String) (apps : List Application) : Option Application :=
  if class_name = "" then none
  else
    let class_name_lc := lowerStr class_name
    let exact_matches := apps.filter (isExactClassMatch class_name_lc)
    let substring_matches := apps.filter (isSubstringClassMatch class_name_lc)
    if exact_matches ≠ [] then minByIdLen exact_matches
    else if substring_matches ≠ [] then minByIdLen substring_matches
    else none

/-- WindowMatcher._find_matching_app: title-based exact lookup first, then
class-based lookup on class_name or initial_class.  The window's app_id is
never consulted. -/
def find_matching_app (window : Window) (apps : List Application) : Option Application :=
  let initial_title := window.initial_title
  let class_name := if window.class_name = "" then window.initial_class else window.class_name
  match (if initial_title = "" then none else get_app_by_title (trimStr initial_title) apps) with
  | some app => some app
  | none =>
    if class_name = "" then none else get_app_by_class (trimStr class_name) apps

/-- WindowMatcher._create_group_key.  The titles and class arrive already
normalized from the caller. -/
def create_group_key (app : Application) (initial_title current_title class_name : String) :
    String :=
  let app_name_norm := normalize_string app.name
  if initial_title != "" &&
      (initial_title != app_name_norm &&
       !containsSub initial_title app_name_norm &&
       !containsSub app_name_norm initial_title) then
    app.id ++ ":" ++ initial_title
  else if (current_title != "" && initial_title != "" && current_title != initial_title) &&
      (decide (current_title.length > 10) && !containsSub current_title initial_title) then
    app.id ++ ":" ++ current_title
  else if initial_title != "" &&
      (initial_title == app_name_norm || containsSub app_name_norm initial_title) then
    app.id ++ ":main"
  else
    app.id

/-- The group-dict update of WindowMatcher.group_windows_by_app once the
application and key are known: create the entry with an empty window list
when the key is new, append the window to the entry, and fill in the icon
when the entry has none. -/
def group_insert (window : Window) (app : Application) (icon_override : Option String)
    (group_key : String) (running_groups : List (String × AppGroup)) :
    List (String × AppGroup) :=
  let g0 :=
    if dictMem running_groups group_key then running_groups
    else dictSet running_groups group_key { app := app, windows := [], icon := icon_override }
  let g1 := match dictGet? g0 group_key with
    | some g => dictSet g0 group_key { g with windows := g.windows ++ [window] }
    | none => g0
  match dictGet? g1 group_key with
  | some g => if g.icon = none then dictSet g1 group_key { g with icon := icon_override } else g1
  | none => g1

/-- The body of the loop of WindowMatcher.group_windows_by_app for one
window.  Icon lookup through IconManager (a filesystem search) is passed in
as the findIcon parameter: it stands for find_icon_for_desktop composed
with find_desktop_file_by_name, returning none when either step fails. -/
def group_step (findIcon : String → Option String) (apps : List Application)
    (running_groups : List (String × AppGroup)) (window : Window) :
    List (String × AppGroup) :=
  let initial_title := normalize_string window.initial_title
  let current_title := normalize_string window.title
  let class_name :=
    normalize_string (if window.class_name = "" then window.initial_class else window.class_name)
  match find_matching_app window apps with
  | none => running_groups
  | some app =>
    let group_key := create_group_key app initial_title current_title class_name
    let found_icon := if initial_title != "" then findIcon initial_title else none
    let icon_override := match found_icon with
      | some f => some f
      | none => app.icon
    group_insert window app icon_override group_key running_groups

/-- WindowMatcher.group_windows_by_app: fold the per-window step over the
window list, starting from the empty dict. -/
def group_windows_by_app (findIcon : String → Option String) (windows : List Window)
    (apps : List Application) : List (String × AppGroup) :=
  windows.foldl (group_step findIcon apps) []

/-! ## WindowState snapshot and WindowDetector._detect_window_state
(window_detector.py)

WindowState is a plain mutable object; WindowDetector keeps one in
self._current_state.  Because the claim under examination is about object
identity (fresh snapshot vs in-place mutation), snapshots live in an
address-indexed store and the detector holds the address of its current
snapshot, exactly as Python references do. -/

/-- The fields of window_detector.WindowState. -/
structure WindowStateV where
  windows : List Window
  app_groups : List (String × AppGroup)
  last_update_time : Nat
deriving DecidableEq

/-- The snapshot store of a WindowDetector: the heap of WindowState
objects plus the address held in self._current_state. -/
structure DetectorHeap where
  store : Nat → WindowStateV
  currentAddr : Nat

/-- WindowDetector._detect_window_state: overwrites the windows,
last_update_time and app_groups attributes of the object at
self._current_state.  No new WindowState is allocated. -/
def detect_window_state (h : DetectorHeap) (hyprWindows : List Window)
    (apps : List Application) (findIcon : String → Option String) (now : Nat) : DetectorHeap :=
  let new_state : WindowStateV :=
    { windows := hyprWindows
      app_groups := group_windows_by_app findIcon hyprWindows apps
      last_update_time := now }
  { h with store := fun a => if a = h.currentAddr then new_state else h.store a }

/-! ## WindowDetector debouncing (window_detector.py)

_schedule_state_update cancels any pending GLib timeout and arms a new
30 ms one; when the timeout fires, _detect_window_state_and_notify runs one
recomputation, one notification pass, and clears the timeout id.  The
model tracks the armed deadline and counts the recomputations and
notification passes performed. -/

/-- Debounce bookkeeping: the deadline of the armed timeout (if any) and
how many times _detect_window_state_and_notify has run, split into its
recomputation and its subscriber-notification step. -/
structure DebounceState where
  pending : Option Nat
  recomputes : Nat
  notifies : Nat
deriving DecidableEq

/-- The GLib main loop firing a due timeout before handling the next
event: _detect_window_state_and_notify recomputes once, notifies once and
clears self._update_timeout_id. -/
def fireIfDue (s : DebounceState) (now : Nat) : DebounceState :=
  match s.pending with
  | some deadline =>
    if deadline ≤ now then
      { pending := none, recomputes := s.recomputes + 1, notifies := s.notifies + 1 }
    else s
  | none => s

/-- WindowDetector._schedule_state_update: GLib.source_remove on any
pending timeout (cancellation), then GLib.timeout_add(30, ...). -/
def schedule_state_update (s : DebounceState) (now : Nat) : DebounceState :=
  { s with pending := some (now + 30) }

/-- One raw event arriving at time t: the loop first fires a due timeout,
then the event handler calls _schedule_state_update. -/
def debounce_event (s : DebounceState) (t : Nat) : DebounceState :=
  schedule_state_update (fireIfDue s t) t

/-- A whole sequence of raw events, in arrival order. -/
def run_events (s : DebounceState) (ts : List Nat) : DebounceState :=
  ts.foldl debounce_event s

/-- After the burst: the armed timeout eventually fires (one recomputation,
one notification pass) and removes itself. -/
def flush_pending (s : DebounceState) : DebounceState :=
  match s.pending with
  | some _ => { pending := none, recomputes := s.recomputes + 1, notifies := s.notifies + 1 }
  | none => s

/-! ## WindowDetector subscribe / unsubscribe / notify (window_detector.py)

Subscriber callbacks are opaque closures kept in a Python set; invoking
one either returns or raises.  A callback is modelled by an identity and
its raising behaviour. -/

/-- A subscriber callback: set membership uses its identity; invoking it
raises exactly when raises is true. -/
structure SubscriberCb where
  id : Nat
  raises : Bool
deriving DecidableEq

/-- Invoking callback(state): Except.error models a raised exception. -/
def invoke_cb (cb : SubscriberCb) : Except String Unit :=
  if cb.raises then Except.error "callback raised" else Except.ok ()

/-- The WindowDetector fields that subscribe / unsubscribe touch, with
instrumentation counting listener starts and stops. -/
structure Detector where
  subscribers : Finset SubscriberCb
  listener_running : Bool
  listener_starts : Nat
  listener_stops : Nat
deriving DecidableEq

/-- WindowDetector.subscribe: add the callback to the set, deliver the
current state synchronously with no try/except (a raised exception
propagates and aborts the rest of the method), then, if this is the first
subscriber and no listener exists, construct and start the IPC listener.
Returns the new detector state and the exception that escaped, if any. -/
def subscribe (d : Detector) (cb : SubscriberCb) : Detector × Option String :=
  let d1 := { d with subscribers := insert cb d.subscribers }
  match invoke_cb cb with
  | Except.error e => (d1, some e)
  | Except.ok _ =>
    if d1.subscribers.card = 1 ∧ d1.listener_running = false then
      ({ d1 with listener_running := true, listener_starts := d1.listener_starts + 1 }, none)
    else (d1, none)

/-- WindowDetector.unsubscribe: discard the callback; when no subscribers
remain and a listener exists, stop and drop it. -/
def unsubscribe (d : Detector) (cb : SubscriberCb) : Detector :=
  let d1 := { d with subscribers := d.subscribers.erase cb }
  if d1.subscribers.card = 0 ∧ d1.listener_running = true then
    { d1 with listener_running := false, listener_stops := d1.listener_stops + 1 }
  else d1

/-- WindowDetector._notify_subscribers: iterate over a copy of the
subscriber set, invoking each callback inside try/except Exception: pass.
Every callback is invoked; the recorded booleans tell which succeeded.
The function is total: no exception escapes the loop. -/
def notify_subscribers (cbs : List SubscriberCb) : List Bool :=
  cbs.map (fun cb =>
    match invoke_cb cb with
    | Except.ok _ => true
    | Except.error _ => false)

/-- The listener-lifecycle invariant stated by the specification: a
running listener exists iff at least one subscriber is registered. -/
def listener_invariant (d : Detector) : Prop :=
  d.listener_running = true ↔ d.subscribers ≠ ∅

instance (d : Detector) : Decidable (listener_invariant d) := by
  unfold listener_invariant; infer_instance

/-! ## BadgeCounter (badge_counter.py) -/

/-- badge_counter.BadgeInfo with the constructor semantics of its
__init__: visible is set from count at construction time. -/
structure BadgeInfo where
  app : Application
  count : Nat
  windows : List Window
  visible : Bool
deriving DecidableEq

/-- BadgeInfo(app, count, windows): visible = count > 0. -/
def mkBadgeInfo (app : Application) (count : Nat) (windows : List Window) : BadgeInfo :=
  { app := app, count := count, windows := windows, visible := decide (count > 0) }

/-- BadgeCounter._compute_badge_for_app: an empty app_groups dict is falsy
and short-circuits to a zero badge; otherwise one pass over the groups
accumulates the window count and window list of the groups whose
application id equals the queried application's id. -/
def compute_badge_for_app (app : Application) (groups : List (String × AppGroup)) : BadgeInfo :=
  if groups = [] then mkBadgeInfo app 0 []
  else
    let r := groups.foldl
      (fun (acc : Nat × List Window) g =>
        if g.2.app.id == app.id then
          (acc.1 + g.2.windows.length, acc.2 ++ g.2.windows)
        else acc)
      (0, [])
    mkBadgeInfo app r.1 r.2

/-- The cache-miss loop of BadgeCounter.compute_badges_for_apps: build the
badges dict keyed by application id, in list order. -/
def badges_for_apps (apps : List Application) (groups : List (String × AppGroup)) :
    List (String × BadgeInfo) :=
  apps.foldl (fun m app => dictSet m app.id (compute_badge_for_app app groups)) []

/-- The heap of badge dicts: dict objects are addressed so that
dict.copy() (a fresh dict with the same entries) is observable. -/
structure BadgeHeap where
  store : Nat → List (String × BadgeInfo)
  next : Nat

/-- The mutable fields of a BadgeCounter: the address of the internal
_cached_badges dict and _last_state_time. -/
structure BadgeCounterState where
  cacheAddr : Nat
  last_state_time : Nat

/-- BadgeCounter.compute_badges_for_apps.  On a cache hit (equal
timestamp) it returns self._cached_badges.copy() -- a freshly allocated
dict with the cached entries -- performing zero per-application
computations.  On a miss it rebuilds the badges dict, stores a copy as the
new cache and returns the freshly built dict.  Result: new heap, new
counter state, address of the returned dict, and the number of
per-application computations performed. -/
def compute_badges_for_apps (h : BadgeHeap) (c : BadgeCounterState) (ws : WindowStateV)
    (apps : List Application) : BadgeHeap × BadgeCounterState × Nat × Nat :=
  if ws.last_update_time = c.last_state_time then
    let addr := h.next
    ({ store := fun a => if a = addr then h.store c.cacheAddr else h.store a,
       next := h.next + 1 },
     c, addr, 0)
  else
    let badges := badges_for_apps apps ws.app_groups
    let baddr := h.next
    let caddr := h.next + 1
    ({ store := fun a => if a = baddr ∨ a = caddr then badges else h.store a,
       next := h.next + 2 },
     { cacheAddr := caddr, last_state_time := ws.last_update_time },
     baddr, apps.length)

/-- The loop body of BadgeCounter.get_running_apps_badges for one group:
skip pinned applications when exclude_pinned; merge into the existing
BadgeInfo of the same application id (count += len, windows.extend) or
create a fresh one. -/
def running_fold_step (exclude_pinned : Bool) (badges : List (String × BadgeInfo))
    (g : String × AppGroup) : List (String × BadgeInfo) :=
  if exclude_pinned && g.2.app.is_pinned then badges
  else
    match dictGet? badges g.2.app.id with
    | some b =>
      dictSet badges g.2.app.id
        { b with count := b.count + g.2.windows.length,
                 windows := b.windows ++ g.2.windows }
    | none =>
      dictSet badges g.2.app.id (mkBadgeInfo g.2.app g.2.windows.length g.2.windows)

/-- BadgeCounter.get_running_apps_badges: aggregate over every group of
the snapshot (empty app_groups is falsy and short-circuits), then set
every visibility flag from the final count. -/
def get_running_apps_badges (groups : List (String × AppGroup)) (exclude_pinned : Bool) :
    List (String × BadgeInfo) :=
  if groups = [] then []
  else
    let badges := groups.foldl (running_fold_step exclude_pinned) []
    badges.map (fun p => (p.1, { p.2 with visible := decide (p.2.count > 0) }))

/-! ## WindowPreviewManager timers (window_preview.py)

The manager keeps two dicts of pending GLib timeout ids keyed by
application id.  Removing a dict entry with del raises KeyError when the
key is absent, so the source guards every del with a membership test; the
model keeps the raising del to show the guard suffices. -/

/-- The timer maps of a WindowPreviewManager and the next GLib timeout id
to hand out. -/
structure PreviewManager where
  hover_timeouts : List (String × Nat)
  hide_timeouts : List (String × Nat)
  next_timer_id : Nat
deriving DecidableEq

/-- Python del dict[key]: raises KeyError when the key is absent. -/
def dictDel (m : List (String × Nat)) (k : String) : Except String (List (String × Nat)) :=
  if m.any (fun p => p.1 == k) then Except.ok (m.filter (fun p => !(p.1 == k)))
  else Except.error "KeyError"

/-- WindowPreviewManager._cancel_hover_timeout: membership-guarded
GLib.source_remove plus del. -/
def cancel_hover_timeout (m : PreviewManager) (app_id : String) :
    Except String PreviewManager :=
  if m.hover_timeouts.any (fun p => p.1 == app_id) then
    match dictDel m.hover_timeouts app_id with
    | Except.ok h => Except.ok { m with hover_timeouts := h }
    | Except.error e => Except.error e
  else Except.ok m

/-- WindowPreviewManager._cancel_hide_timeout: membership-guarded
GLib.source_remove plus del. -/
def cancel_hide_timeout (m : PreviewManager) (app_id : String) :
    Except String PreviewManager :=
  if m.hide_timeouts.any (fun p => p.1 == app_id) then
    match dictDel m.hide_timeouts app_id with
    | Except.ok h => Except.ok { m with hide_timeouts := h }
    | Except.error e => Except.error e
  else Except.ok m

/-- WindowPreviewManager.schedule_hide_preview: early return (nothing
armed, nothing cancelled) while a hover (show) timer is pending for this
id; otherwise cancel any pending hide timer and arm a new one. -/
def schedule_hide_preview (m : PreviewManager) (app_id : String) :
    Except String PreviewManager :=
  if m.hover_timeouts.any (fun p => p.1 == app_id) then Except.ok m
  else
    match cancel_hide_timeout m app_id with
    | Except.error e => Except.error e
    | Except.ok m1 =>
      Except.ok { m1 with
        hide_timeouts := dictSet m1.hide_timeouts app_id m1.next_timer_id,
        next_timer_id := m1.next_timer_id + 1 }

/-! ## HyprlandIPCListener line handling (window_detector.py)

The listener thread reads a line, strips it, and only if it contains the
">>" delimiter splits on the first occurrence and invokes the callback
with (event-type, payload); otherwise the line is dropped. -/

/-- Python line.split with the two-character separator and maxsplit 1:
split a character list at the first occurrence of two consecutive
greater-than signs.  none when there is no occurrence. -/
def splitFirstDelim : List Char → Option (List Char × List Char)
  | [] => none
  | [_] => none
  | c1 :: c2 :: rest =>
    if c1 = '>' ∧ c2 = '>' then some ([], rest)
    else
      match splitFirstDelim (c2 :: rest) with
      | some p => some (c1 :: p.1, p.2)
      | none => none

/-- One iteration of HyprlandIPCListener._listener_thread on a line that
was read: strip, test for the delimiter, split once.  some (eventType,
payload) means the callback is invoked with exactly these two arguments;
none means the line is dropped silently. -/
def process_line (line : String) : Option (String × String) :=
  let s := String.mk (trimChars line.toList)
  if containsSub ">>" s then
    match splitFirstDelim s.toList with
    | some p => some (String.mk p.1, String.mk p.2)
    | none => none
  else none

/-! ## Helper lemmas about the dict model -/

lemma dictSet_mem_cases {β : Type} {p : String × β} {m : List (String × β)} {k : String}
    {v : β} (h : p ∈ dictSet m k v) : (p ∈ m ∧ p.1 ≠ k) ∨ p = (k, v) := by
  rw [dictSet] at h
  split at h
  case isTrue hm =>
    rw [List.mem_map] at h
    obtain ⟨q, hq, hpq⟩ := h
    by_cases hk : (q.1 == k) = true
    · right
      rw [if_pos hk] at hpq
      exact hpq.symm
    · left
      rw [if_neg hk] at hpq
      subst hpq
      exact ⟨hq, by simpa using hk⟩
  case isFalse hm =>
    rw [List.mem_append] at h
    rcases h with h | h
    · left
      refine ⟨h, fun hpk => hm ?_⟩
      rw [dictMem, List.any_eq_true]
      exact ⟨p, h, by simp [hpk]⟩
    · right
      simpa using h

lemma find?_set_of_mem {β : Type} (m : List (String × β)) (k : String) (v : β)
    (hm : dictMem m k = true) :
    (m.map (fun p => if p.1 == k then (k, v) else p)).find? (fun p => p.1 == k) = some (k, v) := by
  induction m with
  | nil => simp [dictMem] at hm
  | cons q t ih =>
    by_cases hk : (q.1 == k) = true
    · simp [List.find?, hk]
    · have hm' : dictMem t k = true := by
        rw [dictMem, List.any_cons, Bool.or_eq_true] at hm
        rcases hm with h | h
        · exact absurd h hk
        · exact h
      simpa [List.find?, hk] using ih hm'

lemma find?_append_single {β : Type} (m : List (String × β)) (k : String) (v : β)
    (hm : dictMem m k = false) :
    (m ++ [(k, v)]).find? (fun p => p.1 == k) = some (k, v) := by
  induction m with
  | nil => simp [List.find?]
  | cons q t ih =>
    rw [dictMem, List.any_cons] at hm
    have hk : (q.1 == k) = false := by
      cases hqk : (q.1 == k) <;> simp [hqk] at hm ⊢
    have hm' : dictMem t k = false := by
      cases hmt : t.any (fun p => p.1 == k) <;> simp [hk, hmt, dictMem] at hm ⊢
    simpa [List.find?, hk] using ih hm'

lemma dictGet?_dictSet_self {β : Type} (m : List (String × β)) (k : String) (v : β) :
    dictGet? (dictSet m k v) k = some v := by
  rw [dictSet, dictGet?]
  split
  case isTrue hm => rw [find?_set_of_mem m k v hm]; rfl
  case isFalse hm =>
    rw [find?_append_single m k v (by simpa using hm)]; rfl

lemma dictGet?_isSome_of_mem {β : Type} {m : List (String × β)} {k : String}
    (hm : dictMem m k = true) : ∃ v, dictGet? m k = some v := by
  induction m with
  | nil => simp [dictMem] at hm
  | cons q t ih =>
    by_cases hk : (q.1 == k) = true
    · exact ⟨q.2, by simp [dictGet?, List.find?, hk]⟩
    · have hm' : dictMem t k = true := by
        rw [dictMem, List.any_cons, Bool.or_eq_true] at hm
        rcases hm with h | h
        · exact absurd h hk
        · exact h
      obtain ⟨v, hv⟩ := ih hm'
      refine ⟨v, ?_⟩
      rw [dictGet?] at hv ⊢
      simpa [List.find?, hk] using hv

/-! ## Helper lemmas about minByIdLen -/

lemma minStep_foldl_some (l : List Application) :
    ∀ b : Application, ∃ x, l.foldl minStep (some b) = some x ∧ (x ∈ l ∨ x = b) := by
  induction l with
  | nil => exact fun b => ⟨b, rfl, Or.inr rfl⟩
  | cons a t ih =>
    intro b
    by_cases h : a.id.length < b.id.length
    · obtain ⟨x, hx, hmem⟩ := ih a
      refine ⟨x, ?_, ?_⟩
      · simpa [List.foldl, minStep, h] using hx
      · rcases hmem with hm | hm
        · exact Or.inl (List.mem_cons_of_mem _ hm)
        · exact Or.inl (hm ▸ List.mem_cons_self _ _)
    · obtain ⟨x, hx, hmem⟩ := ih b
      refine ⟨x, ?_, ?_⟩
      · simpa [List.foldl, minStep, h] using hx
      · rcases hmem with hm | hm
        · exact Or.inl (List.mem_cons_of_mem _ hm)
        · exact Or.inr hm

lemma minByIdLen_mem {l : List Application} (h : l ≠ []) :
    ∃ x, minByIdLen l = some x ∧ x ∈ l := by
  cases l with
  | nil => exact absurd rfl h
  | cons a t =>
    obtain ⟨x, hx, hmem⟩ := minStep_foldl_some t a
    refine ⟨x, ?_, ?_⟩
    · simpa [minByIdLen, List.foldl, minStep] using hx
    · rcases hmem with hm | hm
      · exact List.mem_cons_of_mem _ hm
      · exact hm ▸ List.mem_cons_self _ _

/-! ## Helper lemmas: every created group carries at least one window -/

lemma group_insert_windows_ne_nil {w : Window} {app : Application} {ico : Option String}
    {key : String} {m : List (String × AppGroup)}
    (hm : ∀ p ∈ m, p.2.windows ≠ []) :
    ∀ p ∈ group_insert w app ico key m, p.2.windows ≠ [] := by
  intro p hp
  have hg0get : ∃ g, dictGet?
      (if dictMem m key then m
       else dictSet m key { app := app, windows := [], icon := ico }) key = some g := by
    split
    case isTrue hmem => exact dictGet?_isSome_of_mem hmem
    case isFalse hmem => exact ⟨_, dictGet?_dictSet_self _ _ _⟩
  obtain ⟨g, hg⟩ := hg0get
  simp only [group_insert] at hp
  rw [hg] at hp
  simp only [] at hp
  rw [dictGet?_dictSet_self] at hp
  simp only [] at hp
  have hmemg1 : ∀ q ∈ dictSet
      (if dictMem m key then m
       else dictSet m key { app := app, windows := [], icon := ico }) key
      { g with windows := g.windows ++ [w] }, q.2.windows ≠ [] := by
    intro q hq
    rcases dictSet_mem_cases hq with ⟨hq0, hqk⟩ | hqe
    · split at hq0
      · exact hm q hq0
      · rcases dictSet_mem_cases hq0 with ⟨hqm, _⟩ | hqe0
        · exact hm q hqm
        · exact absurd (by rw [hqe0]) hqk
    · rw [hqe]
      simp
  split at hp
  · rcases dictSet_mem_cases hp with ⟨hp1, _⟩ | hpe
    · exact hmemg1 p hp1
    · rw [hpe]
      simp
  · exact hmemg1 p hp

lemma group_step_windows_ne_nil {fi : String → Option String} {apps : List Application}
    {acc : List (String × AppGroup)} {w : Window}
    (hacc : ∀ p ∈ acc, p.2.windows ≠ []) :
    ∀ p ∈ group_step fi apps acc w, p.2.windows ≠ [] := by
  intro p hp
  simp only [group_step] at hp
  rcases hfind : find_matching_app w apps with _ | app
  · rw [hfind] at hp
    exact hacc p hp
  · rw [hfind] at hp
    simp only [] at hp
    exact group_insert_windows_ne_nil hacc p hp

lemma foldl_group_step_windows_ne_nil (fi : String → Option String) (apps : List Application) :
    ∀ (ws : List Window) (acc : List (String × AppGroup)),
      (∀ p ∈ acc, p.2.windows ≠ []) →
      ∀ p ∈ ws.foldl (group_step fi apps) acc, p.2.windows ≠ [] := by
  intro ws
  induction ws with
  | nil => intro acc hacc p hp; exact hacc p hp
  | cons w rest ih =>
    intro acc hacc p hp
    exact ih (group_step fi apps acc w) (group_step_windows_ne_nil hacc) p hp

/-! ## Helper lemmas: running-apps badge counts stay positive -/

lemma running_fold_step_pos {ep : Bool} {acc : List (String × BadgeInfo)}
    {g : String × AppGroup} (hg : g.2.windows ≠ [])
    (hacc : ∀ q ∈ acc, 1 ≤ q.2.count) :
    ∀ q ∈ running_fold_step ep acc g, 1 ≤ q.2.count := by
  intro q hq
  have hlen : 1 ≤ g.2.windows.length := by
    cases hgw : g.2.windows with
    | nil => exact absurd hgw hg
    | cons a t => simp [hgw]
  rw [running_fold_step] at hq
  split at hq
  · exact hacc q hq
  · rcases hget : dictGet? acc g.2.app.id with _ | b
    · rw [hget] at hq
      simp only [] at hq
      rcases dictSet_mem_cases hq with ⟨hqa, _⟩ | hqe
      · exact hacc q hqa
      · rw [hqe]
        simp only [mkBadgeInfo]
        omega
    · rw [hget] at hq
      simp only [] at hq
      rcases dictSet_mem_cases hq with ⟨hqa, _⟩ | hqe
      · exact hacc q hqa
      · rw [hqe]
        simp only []
        omega

lemma foldl_running_fold_step_pos (ep : Bool) :
    ∀ (gs : List (String × AppGroup)) (acc : List (String × BadgeInfo)),
      (∀ p ∈ gs, p.2.windows ≠ []) →
      (∀ q ∈ acc, 1 ≤ q.2.count) →
      ∀ q ∈ gs.foldl (running_fold_step ep) acc, 1 ≤ q.2.count := by
  intro gs
  induction gs with
  | nil => intro acc _ hacc q hq; exact hacc q hq
  | cons g rest ih =>
    intro acc hgs hacc q hq
    exact ih (running_fold_step ep acc g)
      (fun p hp => hgs p (List.mem_cons_of_mem _ hp))
      (running_fold_step_pos (hgs g (List.mem_cons_self _ _)) hacc) q hq

/-! ## Helper lemmas: splitting on the first delimiter -/

lemma splitFirstDelim_cons_cons (c1 c2 : Char) (rest : List Char) :
    splitFirstDelim (c1 :: c2 :: rest) =
      if c1 = '>' ∧ c2 = '>' then some ([], rest)
      else
        match splitFirstDelim (c2 :: rest) with
        | some p => some (c1 :: p.1, p.2)
        | none => none := rfl

lemma isPrefixOf_two_chars (c1 c2 : Char) (rest : List Char) :
    (['>', '>'].isPrefixOf (c1 :: c2 :: rest)) = (('>' == c1) && ('>' == c2)) := by
  show (('>' == c1) && (('>' == c2) && List.isPrefixOf ([] : List Char) rest)) = _
  simp [List.isPrefixOf]

lemma splitFirstDelim_none_iff :
    ∀ l : List Char, splitFirstDelim l = none ↔ listContainsSub ['>', '>'] l = false := by
  intro l
  induction l with
  | nil => simp [splitFirstDelim, listContainsSub]
  | cons c1 t ih =>
    cases t with
    | nil => simp [splitFirstDelim, listContainsSub, List.isPrefixOf]
    | cons c2 rest =>
      rw [splitFirstDelim_cons_cons]
      by_cases hd : c1 = '>' ∧ c2 = '>'
      · obtain ⟨h1, h2⟩ := hd
        subst h1
        subst h2
        simp [listContainsSub, List.isPrefixOf]
      · rw [if_neg hd]
        have hpre : (['>', '>'].isPrefixOf (c1 :: c2 :: rest)) = false := by
          rw [isPrefixOf_two_chars]
          by_cases h1 : c1 = '>'
          · have h2 : ¬c2 = '>' := fun h2 => hd ⟨h1, h2⟩
            have e2 : ('>' == c2) = false := beq_eq_false_iff_ne.mpr (fun h => h2 h.symm)
            rw [e2, Bool.and_false]
          · have e1 : ('>' == c1) = false := beq_eq_false_iff_ne.mpr (fun h => h1 h.symm)
            rw [e1, Bool.false_and]
        rw [show listContainsSub ['>', '>'] (c1 :: c2 :: rest) =
            (['>', '>'].isPrefixOf (c1 :: c2 :: rest) || listContainsSub ['>', '>'] (c2 :: rest))
          from rfl, hpre, Bool.false_or]
        rcases hsp : splitFirstDelim (c2 :: rest) with _ | p
        · exact ⟨fun _ => ih.mp hsp, fun _ => rfl⟩
        · constructor
          · intro h
            exact absurd h (by simp)
          · intro h
            have hn := ih.mpr h
            rw [hsp] at hn
            exact absurd hn (by simp)

lemma splitFirstDelim_eq :
    ∀ l : List Char, ∀ a b : List Char, splitFirstDelim l = some (a, b) →
      l = a ++ '>' :: '>' :: b ∧ listContainsSub ['>', '>'] (a ++ ['>']) = false := by
  intro l
  induction l with
  | nil => intro a b h; exact absurd h (by simp [splitFirstDelim])
  | cons c1 t ih =>
    cases t with
    | nil => intro a b h; exact absurd h (by simp [splitFirstDelim])
    | cons c2 rest =>
      intro a b h
      rw [splitFirstDelim_cons_cons] at h
      by_cases hd : c1 = '>' ∧ c2 = '>'
      · rw [if_pos hd] at h
        have hinj := Option.some.inj h
        have ha : ([] : List Char) = a := congrArg Prod.fst hinj
        have hb : rest = b := congrArg Prod.snd hinj
        obtain ⟨h1, h2⟩ := hd
        subst h1
        subst h2
        refine ⟨by rw [← ha, ← hb]; rfl, ?_⟩
        rw [← ha]
        simp [listContainsSub, List.isPrefixOf]
      · rw [if_neg hd] at h
        rcases hsp : splitFirstDelim (c2 :: rest) with _ | p
        · rw [hsp] at h
          exact absurd h (by simp)
        · rw [hsp] at h
          obtain ⟨a', b'⟩ := p
          have hinj := Option.some.inj h
          have ha : c1 :: a' = a := congrArg Prod.fst hinj
          have hb : b' = b := congrArg Prod.snd hinj
          obtain ⟨hdec, hnc⟩ := ih a' b' hsp
          constructor
          · rw [← ha, ← hb, show c1 :: c2 :: rest = c1 :: (c2 :: rest) from rfl, hdec]
            rfl
          · rw [← ha]
            have hstep : listContainsSub ['>', '>'] ((c1 :: a') ++ ['>']) =
                (['>', '>'].isPrefixOf (c1 :: (a' ++ ['>'])) ||
                 listContainsSub ['>', '>'] (a' ++ ['>'])) := rfl
            rw [hstep, hnc, Bool.or_false]
            cases a' with
            | nil =>
              have hc2 : c2 = '>' := by
                have h' : c2 :: rest = '>' :: '>' :: b' := by simpa using hdec
                exact ((List.cons.injEq _ _ _ _).mp h').1
              have hc1 : ¬c1 = '>' := fun hc1 => hd ⟨hc1, hc2⟩
              rw [show (c1 :: (([] : List Char) ++ ['>'])) = c1 :: '>' :: [] from rfl,
                isPrefixOf_two_chars]
              rw [beq_eq_false_iff_ne.mpr (fun hx => hc1 hx.symm), Bool.false_and]
            | cons d t' =>
              have hc2 : c2 = d := by
                have h' : c2 :: rest = d :: (t' ++ '>' :: '>' :: b') := by simpa using hdec
                exact ((List.cons.injEq _ _ _ _).mp h').1
              rw [show (c1 :: (d :: t' ++ ['>'])) = c1 :: d :: (t' ++ ['>']) from rfl,
                isPrefixOf_two_chars]
              by_cases hc1 : c1 = '>'
              · have hdd : ¬d = '>' := fun hdd => hd ⟨hc1, hc2 ▸ hdd⟩
                rw [beq_eq_false_iff_ne.mpr (fun hx => hdd hx.symm), Bool.and_false]
              · rw [beq_eq_false_iff_ne.mpr (fun hx => hc1 hx.symm), Bool.false_and]

/-! ## Helper lemmas: debouncing a burst never fires mid-burst -/

lemma run_events_no_fire (lo d : Nat) (hd : d < 30) :
    ∀ (ts : List Nat) (dl r n : Nat), lo + d < dl →
      (∀ x ∈ ts, lo ≤ x ∧ x ≤ lo + d) →
      ∃ dl', run_events ⟨some dl, r, n⟩ ts = ⟨some dl', r, n⟩ ∧ lo + d < dl' := by
  intro ts
  induction ts with
  | nil => intro dl r n hdl _; exact ⟨dl, rfl, hdl⟩
  | cons x rest ih =>
    intro dl r n hdl hall
    obtain ⟨hlo, hhi⟩ := hall x (List.mem_cons_self _ _)
    have hnf : ¬ dl ≤ x := by omega
    have hstep : debounce_event ⟨some dl, r, n⟩ x = ⟨some (x + 30), r, n⟩ := by
      simp [debounce_event, fireIfDue, schedule_state_update, hnf]
    have hx30 : lo + d < x + 30 := by omega
    have hrun : run_events ⟨some dl, r, n⟩ (x :: rest) =
        run_events (debounce_event ⟨some dl, r, n⟩ x) rest := rfl
    rw [hrun, hstep]
    exact ih (x + 30) r n hx30 (fun y hy => hall y (List.mem_cons_of_mem _ hy))

/-! ## Helper lemmas: listener lifecycle invariant preservation -/

lemma subscribe_preserves_invariant (d : Detector) (cb : SubscriberCb)
    (hinv : listener_invariant d) (hcb : cb.raises = false) :
    listener_invariant (subscribe d cb).1 := by
  rw [listener_invariant] at hinv ⊢
  have hok : invoke_cb cb = Except.ok () := by simp [invoke_cb, hcb]
  rw [subscribe, hok]
  simp only []
  split
  case isTrue hc =>
    simp only []
    constructor
    · intro _
      exact Finset.insert_ne_empty _ _
    · intro _
      trivial
  case isFalse hc =>
    simp only []
    constructor
    · intro _
      exact Finset.insert_ne_empty _ _
    · intro _
      by_cases hrun : d.listener_running = true
      · exact hrun
      · exfalso
        have hfalse : d.listener_running = false := by
          cases hx : d.listener_running
          · rfl
          · exact absurd hx hrun
        have hempty : d.subscribers = ∅ := by
          by_contra hne
          exact hrun (hinv.mpr hne)
        exact hc ⟨by rw [hempty]; simp, hfalse⟩

lemma unsubscribe_preserves_invariant (d : Detector) (cb : SubscriberCb)
    (hinv : listener_invariant d) :
    listener_invariant (unsubscribe d cb) := by
  rw [listener_invariant] at hinv ⊢
  rw [unsubscribe]
  simp only []
  split
  case isTrue hc =>
    simp only []
    constructor
    · intro h
      exact absurd h (by simp)
    · intro h
      exact absurd (Finset.card_eq_zero.mp hc.1) h
  case isFalse hc =>
    simp only []
    constructor
    · intro h
      intro hempty
      rw [hempty] at hc
      exact hc ⟨by simp, h⟩
    · intro h
      by_cases hrun : d.listener_running = true
      · exact hrun
      · exfalso
        have hempty : d.subscribers = ∅ := by
          by_contra hne
          exact hrun (hinv.mpr hne)
        apply h
        rw [hempty]
        exact Finset.erase_empty cb

/-! ## Concrete fixtures used by counterexamples and witnesses -/

/-- Application firefox / Firefox. -/
def appFirefox : Application := { id := "firefox", name := "Firefox", icon := none, is_pinned := false }

/-- A second, unrelated application whose name can substring-match titles. -/
def appBar : Application := { id := "bar", name := "Bar", icon := none, is_pinned := false }

/-- A window identified only by its app_id, whose current title contains
the other application's name. -/
def wOnlyAppId : Window :=
  { address := "0x1", initial_title := "", title := "bar viewer",
    initial_class := "", class_name := "", app_id := "firefox" }

/-- Scenario-1 window as literally constructed by the claim: app_id and
initial_title only. -/
def wFxMain : Window :=
  { address := "0x1", initial_title := "Mozilla Firefox", title := "",
    initial_class := "", class_name := "", app_id := "firefox" }

/-- Scenario-1 second window as literally constructed by the claim. -/
def wFxDoc : Window :=
  { address := "0x2", initial_title := "Document.pdf — Firefox", title := "",
    initial_class := "", class_name := "", app_id := "firefox" }

/-- Scenario-1 window additionally carrying class firefox, so that the
class-based resolution can find the application. -/
def wFxMainCl : Window :=
  { address := "0x1", initial_title := "Mozilla Firefox", title := "",
    initial_class := "", class_name := "firefox", app_id := "firefox" }

/-- Scenario-1 second window additionally carrying class firefox. -/
def wFxDocCl : Window :=
  { address := "0x2", initial_title := "Document.pdf — Firefox", title := "",
    initial_class := "", class_name := "firefox", app_id := "firefox" }

/-! ## Claim C1 -/

/-- Claim C1 (counterexample): a window whose app_id equals application
A's id and whose title substring-matches application B's name does not
make the engine select A and never B.  matches_window_to_app holds for
both A and B (the substring fallback fires for B), and
find_matching_app -- which never consults app_id -- resolves neither,
returning none instead of A. -/
theorem c1_app_id_priority_counterexample :
    matches_window_to_app wOnlyAppId appFirefox = true ∧
    matches_window_to_app wOnlyAppId appBar = true ∧
    find_matching_app wOnlyAppId [appFirefox, appBar] = none := by
  refine ⟨by decide, by decide, by decide⟩

/-- Claim C1 (amended): exact matches outrank substring matches only
within a single call.  (1) app_id equality does make
matches_window_to_app w a true; (2) find_matching_app never consults
app_id (replacing it changes nothing); (3) inside the class-based lookup,
whenever some registry entry is an exact id match, the resolved
application is an exact match, never a substring-only one.  But
matches_window_to_app is an independent per-application test, so a
different application can simultaneously match through the substring
fallback, and app_id equality alone never makes find_matching_app select
the application. -/
theorem c1_exact_match_scoping (w : Window) (a : Application) (apps : List Application)
    (x y : String) (cl : String)
    (h1 : normalize_string w.app_id ≠ "")
    (h2 : normalize_string w.app_id = normalize_app_id a.id)
    (hcl : cl ≠ "")
    (h3 : ∃ app ∈ apps, isExactClassMatch (lowerStr cl) app = true) :
    matches_window_to_app w a = true ∧
    find_matching_app { w with app_id := x } apps = find_matching_app { w with app_id := y } apps ∧
    (∃ app, get_app_by_class cl apps = some app ∧ isExactClassMatch (lowerStr cl) app = true) := by
  refine ⟨?_, rfl, ?_⟩
  · have hc2 : ((normalize_string w.app_id != "") &&
        (normalize_string w.app_id == normalize_app_id a.id)) = true := by
      rw [Bool.and_eq_true]
      exact ⟨bne_iff_ne.mpr h1, beq_iff_eq.mpr h2⟩
    simp only [matches_window_to_app]
    by_cases hb1 : (normalize_string w.initial_title != "" && normalize_string a.name != "" &&
        normalize_string w.initial_title == normalize_string a.name) = true
    · rw [if_pos hb1]
    · rw [if_neg hb1, if_pos hc2]
  · obtain ⟨app0, happs, hex⟩ := h3
    rw [get_app_by_class, if_neg hcl]
    simp only []
    have hne : apps.filter (isExactClassMatch (lowerStr cl)) ≠ [] := by
      intro hnil
      rw [List.filter_eq_nil_iff] at hnil
      exact absurd hex (by simpa using hnil app0 happs)
    rw [if_pos hne]
    obtain ⟨xa, hxa, hxmem⟩ := minByIdLen_mem hne
    exact ⟨xa, hxa, (List.mem_filter.mp hxmem).2⟩

/-- Claim C1 (witness): the amended theorem applied at the concrete
fixture window and registry. -/
theorem c1_exact_match_scoping_witness :
    matches_window_to_app wOnlyAppId appFirefox = true :=
  (c1_exact_match_scoping wOnlyAppId appFirefox [appFirefox, appBar] "x" "y" "firefox"
    (by decide) (by decide) (by decide) (by decide)).1

/-! ## Claim C2 -/

/-- Claim C2 (counterexample): grouping the two scenario-1 windows as
literally constructed (app_id firefox plus the two initial titles)
against the single firefox application does not produce two groups:
application resolution never consults app_id, so neither window resolves
and the group dict is empty. -/
theorem c2_two_windows_counterexample :
    group_windows_by_app (fun _ => none) [wFxMain, wFxDoc] [appFirefox] = [] := by
  decide

/-- Claim C2 (amended): even when the scenario-1 windows carry class
firefox so that they do resolve to the application, the grouping produces
exactly one group, keyed firefox:main, containing both windows: the
application name Firefox is a substring of both initial titles, so the
per-document branch of the key derivation is suppressed and both titles
collapse to the :main key. -/
theorem c2_two_windows_single_group :
    group_windows_by_app (fun _ => none) [wFxMainCl, wFxDocCl] [appFirefox] =
      [("firefox:main", { app := appFirefox, windows := [wFxMainCl, wFxDocCl], icon := none })] := by
  decide

/-! ## Claim C3 -/

/-- A detector heap whose only published snapshot (address 0) carries
timestamp 1. -/
def c3Heap : DetectorHeap :=
  { store := fun _ => { windows := [], app_groups := [], last_update_time := 1 },
    currentAddr := 0 }

/-- Claim C3 (counterexample): a recomputation does not leave the
previously published snapshot unchanged.  A reference to the snapshot that
was current before the recompute (address 0) observes the new timestamp
afterwards: _detect_window_state writes into the same WindowState object
instead of building a fresh one. -/
theorem c3_snapshot_mutation_counterexample :
    ((detect_window_state c3Heap [] [] (fun _ => none) 2).store c3Heap.currentAddr).last_update_time
      ≠ ((c3Heap.store c3Heap.currentAddr).last_update_time) := by
  decide

/-- Claim C3 (amended): every recomputation mutates the single WindowState
object in place.  The detector keeps holding the same object (address
unchanged), overwrites its windows, app_groups and last_update_time with
the newly computed values, and touches no other object; consequently a
reference held before the recompute observes the new values, not the old
ones. -/
theorem c3_detect_overwrites_in_place (h : DetectorHeap) (ws : List Window)
    (apps : List Application) (fi : String → Option String) (now : Nat) :
    (detect_window_state h ws apps fi now).currentAddr = h.currentAddr ∧
    (detect_window_state h ws apps fi now).store h.currentAddr =
      { windows := ws, app_groups := group_windows_by_app fi ws apps,
        last_update_time := now } ∧
    (∀ a, a ≠ h.currentAddr →
      (detect_window_state h ws apps fi now).store a = h.store a) := by
  refine ⟨rfl, ?_, ?_⟩
  · simp [detect_window_state]
  · intro a ha
    simp [detect_window_state, ha]

/-- Claim C3 (witness): the amended theorem applied at the concrete heap;
an address other than the current snapshot's is untouched. -/
theorem c3_detect_overwrites_in_place_witness :
    (detect_window_state c3Heap [] [] (fun _ => none) 2).store 1 = c3Heap.store 1 :=
  (c3_detect_overwrites_in_place c3Heap [] [] (fun _ => none) 2).2.2 1 (by decide)

/-! ## Claim C4 -/

/-- Claim C4: a burst of raw events whose arrival times all lie inside a
window shorter than the 30 ms debounce delay yields exactly one
recomputation and exactly one subscriber-notification pass: every event
cancels the pending timeout and arms a new one, none of the intermediate
timeouts ever fires, and the final armed timeout fires once after the
burst. -/
theorem c4_debounce_burst_single_update (t d : Nat) (ts : List Nat) (hd : d < 30)
    (hall : ∀ x ∈ ts, t ≤ x ∧ x ≤ t + d) :
    (flush_pending (run_events ⟨none, 0, 0⟩ (t :: ts))).recomputes = 1 ∧
    (flush_pending (run_events ⟨none, 0, 0⟩ (t :: ts))).notifies = 1 ∧
    (flush_pending (run_events ⟨none, 0, 0⟩ (t :: ts))).pending = none := by
  have hfirst : debounce_event ⟨none, 0, 0⟩ t = ⟨some (t + 30), 0, 0⟩ := by
    simp [debounce_event, fireIfDue, schedule_state_update]
  have hrun : run_events ⟨none, 0, 0⟩ (t :: ts) =
      run_events (debounce_event ⟨none, 0, 0⟩ t) ts := rfl
  obtain ⟨dl', hdl', _⟩ :=
    run_events_no_fire t d hd ts (t + 30) 0 0 (by omega) hall
  rw [hrun, hfirst, hdl']
  simp [flush_pending]

/-- Claim C4 (witness): five events inside a 10 ms window against the
30 ms debounce delay. -/
theorem c4_debounce_burst_single_update_witness :
    (flush_pending (run_events ⟨none, 0, 0⟩ [0, 2, 4, 7, 10])).recomputes = 1 ∧
    (flush_pending (run_events ⟨none, 0, 0⟩ [0, 2, 4, 7, 10])).notifies = 1 ∧
    (flush_pending (run_events ⟨none, 0, 0⟩ [0, 2, 4, 7, 10])).pending = none :=
  c4_debounce_burst_single_update 0 10 [2, 4, 7, 10] (by decide) (by decide)

/-! ## Claim C5 -/

/-- Claim C5: listener lifecycle.  Starting from the idle detector,
subscribing a first (non-raising) callback starts exactly one listener;
subscribing a second, distinct callback starts no additional listener;
unsubscribing both stops the listener exactly once; and both operations
preserve the invariant that a running listener exists iff at least one
subscriber is registered. -/
theorem c5_listener_lifecycle (cb1 cb2 : SubscriberCb) (d : Detector) (cb : SubscriberCb)
    (hne : cb1 ≠ cb2) (h1 : cb1.raises = false) (h2 : cb2.raises = false)
    (hinv : listener_invariant d) (hcb : cb.raises = false) :
    (subscribe ⟨∅, false, 0, 0⟩ cb1).1.listener_starts = 1 ∧
    (subscribe ⟨∅, false, 0, 0⟩ cb1).1.listener_running = true ∧
    (subscribe (subscribe ⟨∅, false, 0, 0⟩ cb1).1 cb2).1.listener_starts = 1 ∧
    (unsubscribe (subscribe (subscribe ⟨∅, false, 0, 0⟩ cb1).1 cb2).1 cb1).listener_stops = 0 ∧
    (unsubscribe (subscribe (subscribe ⟨∅, false, 0, 0⟩ cb1).1 cb2).1 cb1).listener_running
      = true ∧
    (unsubscribe (unsubscribe (subscribe (subscribe ⟨∅, false, 0, 0⟩ cb1).1 cb2).1 cb1)
      cb2).listener_stops = 1 ∧
    (unsubscribe (unsubscribe (subscribe (subscribe ⟨∅, false, 0, 0⟩ cb1).1 cb2).1 cb1)
      cb2).listener_running = false ∧
    listener_invariant (subscribe d cb).1 ∧
    listener_invariant (unsubscribe d cb) := by
  have hok1 : invoke_cb cb1 = Except.ok () := by simp [invoke_cb, h1]
  have hok2 : invoke_cb cb2 = Except.ok () := by simp [invoke_cb, h2]
  have e1 : subscribe ⟨∅, false, 0, 0⟩ cb1 = (⟨{cb1}, true, 1, 0⟩, none) := by
    rw [subscribe, hok1]
    simp
  have e2 : subscribe (⟨{cb1}, true, 1, 0⟩ : Detector) cb2 =
      (⟨insert cb2 {cb1}, true, 1, 0⟩, none) := by
    rw [subscribe, hok2]
    simp
  have hset : (insert cb2 {cb1} : Finset SubscriberCb).erase cb1 = {cb2} := by
    rw [Finset.erase_insert_of_ne (fun h => hne h.symm)]
    simp
  have e3 : unsubscribe (⟨insert cb2 {cb1}, true, 1, 0⟩ : Detector) cb1 =
      ⟨{cb2}, true, 1, 0⟩ := by
    rw [unsubscribe]
    simp only [hset]
    simp
  have e4 : unsubscribe (⟨{cb2}, true, 1, 0⟩ : Detector) cb2 = ⟨∅, false, 1, 1⟩ := by
    rw [unsubscribe]
    simp
  rw [e1]
  simp only []
  rw [e2]
  simp only []
  rw [e3, e4]
  refine ⟨by trivial, by trivial, by trivial, by trivial, by trivial, by trivial, by trivial,
    subscribe_preserves_invariant d cb hinv hcb,
    unsubscribe_preserves_invariant d cb hinv⟩

/-- Claim C5 (witness): the lifecycle theorem at two concrete distinct
callbacks and a concrete invariant-satisfying detector. -/
theorem c5_listener_lifecycle_witness :
    (subscribe ⟨∅, false, 0, 0⟩ ⟨0, false⟩).1.listener_starts = 1 ∧
    (subscribe ⟨∅, false, 0, 0⟩ ⟨0, false⟩).1.listener_running = true ∧
    (subscribe (subscribe ⟨∅, false, 0, 0⟩ ⟨0, false⟩).1 ⟨1, false⟩).1.listener_starts = 1 ∧
    (unsubscribe (subscribe (subscribe ⟨∅, false, 0, 0⟩ ⟨0, false⟩).1 ⟨1, false⟩).1
      ⟨0, false⟩).listener_stops = 0 ∧
    (unsubscribe (subscribe (subscribe ⟨∅, false, 0, 0⟩ ⟨0, false⟩).1 ⟨1, false⟩).1
      ⟨0, false⟩).listener_running = true ∧
    (unsubscribe (unsubscribe (subscribe (subscribe ⟨∅, false, 0, 0⟩ ⟨0, false⟩).1
      ⟨1, false⟩).1 ⟨0, false⟩) ⟨1, false⟩).listener_stops = 1 ∧
    (unsubscribe (unsubscribe (subscribe (subscribe ⟨∅, false, 0, 0⟩ ⟨0, false⟩).1
      ⟨1, false⟩).1 ⟨0, false⟩) ⟨1, false⟩).listener_running = false ∧
    listener_invariant (subscribe ⟨∅, false, 0, 0⟩ ⟨2, false⟩).1 ∧
    listener_invariant (unsubscribe ⟨∅, false, 0, 0⟩ ⟨2, false⟩) :=
  c5_listener_lifecycle ⟨0, false⟩ ⟨1, false⟩ ⟨∅, false, 0, 0⟩ ⟨2, false⟩
    (by decide) (by decide) (by decide) (by decide) (by decide)

/-! ## Claim C6 -/

/-- Claim C6 (counterexample): the immediate synchronous delivery
performed upon subscription is not wrapped in try/except.  Subscribing a
raising callback makes subscribe itself raise: the exception is propagated
to the caller, contradicting the claim that both delivery paths catch. -/
theorem c6_subscribe_propagates_counterexample :
    (subscribe ⟨∅, false, 0, 0⟩ ⟨0, true⟩).2 ≠ none := by
  decide

/-- Claim C6 (amended): the two delivery paths differ.  The
post-recomputation notification loop catches every exception silently
(it does not log), invokes every subscriber even when earlier ones raise,
and never propagates.  The immediate delivery inside subscribe is
unguarded: a raising callback propagates the exception to subscribe's
caller, after the callback was already registered and before the listener
start step, which is skipped. -/
theorem c6_notify_catches_subscribe_propagates (cbs pre post : List SubscriberCb)
    (cb : SubscriberCb) (d : Detector) (hcb : cb.raises = true) :
    (notify_subscribers cbs).length = cbs.length ∧
    notify_subscribers (pre ++ cb :: post) =
      notify_subscribers pre ++ false :: notify_subscribers post ∧
    (subscribe d cb).2 = some "callback raised" ∧
    (subscribe d cb).1.subscribers = insert cb d.subscribers ∧
    (subscribe d cb).1.listener_starts = d.listener_starts ∧
    (subscribe d cb).1.listener_running = d.listener_running := by
  have herr : invoke_cb cb = Except.error "callback raised" := by simp [invoke_cb, hcb]
  refine ⟨by simp [notify_subscribers], ?_, ?_, ?_, ?_, ?_⟩
  · simp [notify_subscribers, herr]
  · rw [subscribe, herr]
  · rw [subscribe, herr]
  · rw [subscribe, herr]
  · rw [subscribe, herr]

/-- Claim C6 (witness): the amended theorem at a concrete raising
callback between two healthy subscribers. -/
theorem c6_notify_catches_subscribe_propagates_witness :
    (notify_subscribers [⟨0, false⟩, ⟨1, true⟩, ⟨2, false⟩]).length = 3 ∧
    notify_subscribers [⟨0, false⟩, ⟨1, true⟩, ⟨2, false⟩] =
      notify_subscribers [⟨0, false⟩] ++ false :: notify_subscribers [⟨2, false⟩] ∧
    (subscribe ⟨∅, false, 0, 0⟩ ⟨1, true⟩).2 = some "callback raised" ∧
    (subscribe ⟨∅, false, 0, 0⟩ ⟨1, true⟩).1.subscribers =
      insert ⟨1, true⟩ (∅ : Finset SubscriberCb) ∧
    (subscribe ⟨∅, false, 0, 0⟩ ⟨1, true⟩).1.listener_starts = 0 ∧
    (subscribe ⟨∅, false, 0, 0⟩ ⟨1, true⟩).1.listener_running = false :=
  c6_notify_catches_subscribe_propagates [⟨0, false⟩, ⟨1, true⟩, ⟨2, false⟩]
    [⟨0, false⟩] [⟨2, false⟩] ⟨1, true⟩ ⟨∅, false, 0, 0⟩ (by decide)

/-! ## Claim C7 -/

/-- Claim C7: the badge cache.  When the snapshot timestamp equals the
timestamp of the last computed result, compute_badges_for_apps performs
zero per-application computations, returns a dict whose contents equal the
cached dict's, allocated at a fresh address distinct from the internal
cache (a copy, not a shared reference), leaves the cache itself untouched
and the counter state unchanged. -/
theorem c7_badge_cache_hit (h : BadgeHeap) (c : BadgeCounterState) (ws : WindowStateV)
    (apps : List Application)
    (hts : ws.last_update_time = c.last_state_time)
    (hwf : c.cacheAddr < h.next) :
    (compute_badges_for_apps h c ws apps).2.2.2 = 0 ∧
    (compute_badges_for_apps h c ws apps).1.store (compute_badges_for_apps h c ws apps).2.2.1 =
      h.store c.cacheAddr ∧
    (compute_badges_for_apps h c ws apps).2.2.1 ≠ c.cacheAddr ∧
    (compute_badges_for_apps h c ws apps).1.store c.cacheAddr = h.store c.cacheAddr ∧
    (compute_badges_for_apps h c ws apps).2.1 = c := by
  have hr : compute_badges_for_apps h c ws apps =
      ({ store := fun a => if a = h.next then h.store c.cacheAddr else h.store a,
         next := h.next + 1 }, c, h.next, 0) := by
    rw [compute_badges_for_apps, if_pos hts]
  rw [hr]
  have hne : h.next ≠ c.cacheAddr := by omega
  refine ⟨rfl, by simp, hne, ?_, rfl⟩
  simp only []
  rw [if_neg (by omega)]

/-- Claim C7 (witness): a cache hit at a concrete heap and counter state
(cache stored at address 0, heap next-address 1, equal timestamps). -/
theorem c7_badge_cache_hit_witness :
    (compute_badges_for_apps
      { store := fun _ => [], next := 1 } { cacheAddr := 0, last_state_time := 5 }
      { windows := [], app_groups := [], last_update_time := 5 } [appFirefox]).2.2.2 = 0 ∧
    (compute_badges_for_apps
      { store := fun _ => [], next := 1 } { cacheAddr := 0, last_state_time := 5 }
      { windows := [], app_groups := [], last_update_time := 5 } [appFirefox]).2.2.1 ≠ 0 := by
  have hmain := c7_badge_cache_hit { store := fun _ => [], next := 1 }
    { cacheAddr := 0, last_state_time := 5 }
    { windows := [], app_groups := [], last_update_time := 5 } [appFirefox]
    (by decide) (by decide)
  exact ⟨hmain.1, hmain.2.2.1⟩

/-! ## Claim C8 -/

/-- Claim C8: preview timer safety.  schedule_hide_preview is a complete
no-op (no hide timer armed, no state changed, nothing raised) while a show
timer is pending for the id, and cancelling a show or hide timer never
raises, whether or not one is pending. -/
theorem c8_schedule_hide_noop_cancel_safe (m : PreviewManager) (app_id : String) :
    (m.hover_timeouts.any (fun p => p.1 == app_id) = true →
      schedule_hide_preview m app_id = Except.ok m) ∧
    (∃ m1, cancel_hover_timeout m app_id = Except.ok m1) ∧
    (∃ m2, cancel_hide_timeout m app_id = Except.ok m2) := by
  refine ⟨?_, ?_, ?_⟩
  · intro hmem
    rw [schedule_hide_preview, if_pos hmem]
  · rw [cancel_hover_timeout]
    split
    case isTrue hmem =>
      rw [dictDel, if_pos hmem]
      exact ⟨_, rfl⟩
    case isFalse hmem => exact ⟨m, rfl⟩
  · rw [cancel_hide_timeout]
    split
    case isTrue hmem =>
      rw [dictDel, if_pos hmem]
      exact ⟨_, rfl⟩
    case isFalse hmem => exact ⟨m, rfl⟩

/-- Claim C8 (witness): with a show timer pending for id "firefox" and no
hide timer at all, schedule_hide_preview leaves the manager untouched and
both cancellations succeed. -/
theorem c8_schedule_hide_noop_cancel_safe_witness :
    schedule_hide_preview
      { hover_timeouts := [("firefox", 7)], hide_timeouts := [], next_timer_id := 8 }
      "firefox" =
      Except.ok { hover_timeouts := [("firefox", 7)], hide_timeouts := [], next_timer_id := 8 } ∧
    (∃ m1, cancel_hover_timeout
      { hover_timeouts := [("firefox", 7)], hide_timeouts := [], next_timer_id := 8 }
      "nosuchapp" = Except.ok m1) := by
  have hmain := c8_schedule_hide_noop_cancel_safe
    { hover_timeouts := [("firefox", 7)], hide_timeouts := [], next_timer_id := 8 } "firefox"
  have hother := c8_schedule_hide_noop_cancel_safe
    { hover_timeouts := [("firefox", 7)], hide_timeouts := [], next_timer_id := 8 } "nosuchapp"
  exact ⟨hmain.1 (by decide), hother.2.1⟩

/-! ## Claim C9 -/

/-- Claim C9: per-line behaviour of the IPC listener thread.  After
stripping, a line with no occurrence of the two-character delimiter is
dropped (the callback is never invoked, nothing is raised -- process_line
is total and returns none); a line containing the delimiter reaches the
callback as exactly the pair obtained by splitting at the first
occurrence: event-type concatenated with the delimiter and the payload
reconstructs the stripped line, and no delimiter occurrence starts inside
or at the end of the event-type part. -/
theorem c9_listener_line_split (line : String) :
    (listContainsSub ['>', '>'] (trimChars line.toList) = false → process_line line = none) ∧
    (listContainsSub ['>', '>'] (trimChars line.toList) = true →
      ∃ a b : List Char, process_line line = some (String.mk a, String.mk b) ∧
        trimChars line.toList = a ++ '>' :: '>' :: b ∧
        listContainsSub ['>', '>'] (a ++ ['>']) = false) := by
  have hcs : containsSub ">>" (String.mk (trimChars line.toList)) =
      listContainsSub ['>', '>'] (trimChars line.toList) := rfl
  constructor
  · intro h
    simp only [process_line]
    rw [hcs, h]
    simp
  · intro h
    have hsome : ∃ p, splitFirstDelim (trimChars line.toList) = some p := by
      rcases hsp : splitFirstDelim (trimChars line.toList) with _ | p
      · have hfalse := (splitFirstDelim_none_iff _).mp hsp
        rw [hfalse] at h
        exact absurd h (by simp)
      · exact ⟨p, rfl⟩
    obtain ⟨⟨a, b⟩, hsp⟩ := hsome
    obtain ⟨hdec, hnc⟩ := splitFirstDelim_eq _ a b hsp
    refine ⟨a, b, ?_, hdec, hnc⟩
    simp only [process_line]
    rw [hcs, h, if_pos rfl]
    rw [show (String.mk (trimChars line.toList)).toList = trimChars line.toList from rfl, hsp]

/-- Claim C9 (witness): a stripped line without the delimiter is dropped. -/
theorem c9_listener_line_split_witness :
    process_line "malformed event line" = none :=
  (c9_listener_line_split "malformed event line").1 (by decide)

/-! ## Claim C10 -/

/-- A snapshot group dict with one firefox group holding one window. -/
def demoGroups : List (String × AppGroup) :=
  [("firefox:main", { app := appFirefox, windows := [wFxMainCl], icon := none })]

/-- Claim C10: (1) every group produced by group_windows_by_app has a
nonempty window list (a group entry is created only while a matched window
is being appended); (2) over any group dict whose groups are nonempty --
in particular any snapshot built by group_windows_by_app -- every
BadgeInfo returned by get_running_apps_badges has count at least 1 and
visible true, for either value of exclude_pinned; (3) by contrast, the
fixed-list badges computation does emit count-0, invisible badges for
applications with no matching group. -/
theorem c10_running_badges_positive (fi : String → Option String) (wins : List Window)
    (apps : List Application) (groups : List (String × AppGroup)) (ep : Bool)
    (k : String) (g : AppGroup) (app_id : String) (b : BadgeInfo)
    (hg : ∀ p ∈ groups, p.2.windows ≠ []) :
    ((k, g) ∈ group_windows_by_app fi wins apps → g.windows ≠ []) ∧
    ((app_id, b) ∈ get_running_apps_badges groups ep → 1 ≤ b.count ∧ b.visible = true) ∧
    dictGet? (badges_for_apps [appBar] demoGroups) "bar" =
      some { app := appBar, count := 0, windows := [], visible := false } := by
  refine ⟨?_, ?_, by decide⟩
  · intro hmem
    exact foldl_group_step_windows_ne_nil fi apps wins []
      (by intro p hp; cases hp) (k, g) hmem
  · intro hmem
    by_cases hgnil : groups = []
    · rw [get_running_apps_badges, if_pos hgnil] at hmem
      cases hmem
    · rw [get_running_apps_badges, if_neg hgnil] at hmem
      simp only [] at hmem
      rw [List.mem_map] at hmem
      obtain ⟨p, hp, hpe⟩ := hmem
      have hpos := foldl_running_fold_step_pos ep groups [] hg
        (by intro q hq; cases hq) p hp
      have hb : b = { p.2 with visible := decide (p.2.count > 0) } :=
        (congrArg Prod.snd hpe).symm
      constructor
      · rw [hb]
        exact hpos
      · rw [hb]
        exact decide_eq_true (by omega)

/-- Claim C10 (witness): the theorem applied to the concrete one-group
snapshot; the single running badge has count 1 and is visible. -/
theorem c10_running_badges_positive_witness :
    1 ≤ (mkBadgeInfo appFirefox 1 [wFxMainCl]).count ∧
    (mkBadgeInfo appFirefox 1 [wFxMainCl]).visible = true :=
  (c10_running_badges_positive (fun _ => none) [] [] demoGroups true
    "firefox:main" { app := appFirefox, windows := [wFxMainCl], icon := none }
    "firefox" (mkBadgeInfo appFirefox 1 [wFxMainCl])
    (by decide)).2.1 (by decide)
